import Mathlib

/-
  Verification of the call_rcu deferred-reclamation engine of liburcu
  (src/urcu-call-rcu-impl.h).  The engine's data structures and operations
  are shallowly embedded: the wait-free queue of a worker is a list of
  nodes (with the sentinel dummy node explicit), workers live in a heap
  addressed by natural-number ids (standing in for pointers), and the
  temporal claims about the drain cycle and the per-CPU teardown are
  settled over explicit event traces emitted in program order.
-/

namespace Urcu

/-- Machine word size for `unsigned long` (64-bit). -/
def WORD : Nat := 2 ^ 64

/-- Wrapping addition on `unsigned long` (used by `uatomic_add`). -/
def wadd (a b : Nat) : Nat := (a + b) % WORD

/-- Wrapping subtraction on `unsigned long` (used by `uatomic_sub`). -/
def wsub (a b : Nat) : Nat := (a + (WORD - b % WORD)) % WORD

/-- Modelled from the spec: flag bit for realtime workers
(`URCU_CALL_RCU_RT`), declared in urcu-call-rcu.h which is not under
src/; §3 of the spec lists the five flag bits `RT`, `STOP`, `STOPPED`,
`PAUSE`, `PAUSED` of the worker `flags` bitfield. -/
def URCU_CALL_RCU_RT : Nat := 1

/-- Modelled from the spec: flag bit requesting worker termination. -/
def URCU_CALL_RCU_STOP : Nat := 4

/-- Modelled from the spec: flag bit acknowledging worker termination. -/
def URCU_CALL_RCU_STOPPED : Nat := 8

/-- Modelled from the spec: flag bit requesting quiescence across fork. -/
def URCU_CALL_RCU_PAUSE : Nat := 16

/-- Modelled from the spec: flag bit acknowledging quiescence. -/
def URCU_CALL_RCU_PAUSED : Nat := 32

/-- Linux errno value for EINVAL (out-of-range CPU). -/
def EINVAL : Int := 22

/-- Linux errno value for ENOMEM (per-CPU array unavailable). -/
def ENOMEM : Int := 12

/-- Linux errno value for EEXIST (per-CPU slot already assigned). -/
def EEXIST : Int := 17

/-- A node of a worker's wait-free queue (`struct cds_wfq_node` links).
`dummy` is the permanent sentinel embedded in `struct cds_wfq_queue`;
`node fn` is a user `struct rcu_head` whose `func` field is identified
by the natural number `fn`. -/
inductive WfqNode where
  | dummy : WfqNode
  | node (fn : Nat) : WfqNode
deriving DecidableEq, Repr

/-- The callback function of a real node; the dummy sentinel has none. -/
def realFn : WfqNode → Option Nat
  | WfqNode.dummy => none
  | WfqNode.node fn => some fn

/-- The callback-invocation walk of the drain loop, lines 270-282 of
urcu-call-rcu-impl.h: walk the snapshotted singly-linked batch, skip the
dummy sentinel (`if (cbs == &crdp->cbs.dummy)` takes `continue` without
invoking and without incrementing `cbcount`), invoke every other node's
`rhp->func(rhp)` in list order.  Returns the invoked functions in
invocation order; its length is the final `cbcount`. -/
def walkBatch : List WfqNode → List Nat
  | [] => []
  | WfqNode.dummy :: rest => walkBatch rest
  | WfqNode.node fn :: rest => fn :: walkBatch rest

/-- One worker: `struct call_rcu_data` (lines 48-56).  The wait-free
queue `cbs` is the list of queued nodes in FIFO order; the observed-empty
test `&crdp->cbs.head == tail` corresponds to `cbs = []`.  `tid` is not
modelled (the thread itself is external to the state). -/
structure CallRcuData where
  cbs : List WfqNode
  flags : Nat
  futex : Int
  qlen : Nat
  cpu_affinity : Int
deriving DecidableEq, Repr

/-- Events emitted, in program order, by the operations whose claims are
temporal: the batch snapshot (store NULL into head, exchange tail back
to `&head`), the grace-period wait (`synchronize_rcu`), a callback
invocation, the nulling of a per-CPU slot, and the destruction of an
evicted per-CPU worker. -/
inductive Ev where
  | snapshot : Ev
  | grace : Ev
  | invoke (fn : Nat) : Ev
  | nullSlot (cpu : Nat) : Ev
  | freeSlot (cpu : Nat) : Ev
deriving DecidableEq, Repr

/-- The drain phase of one iteration of `call_rcu_thread`'s main loop,
lines 262-284 of urcu-call-rcu-impl.h.  If the queue is observed
non-empty (`&crdp->cbs.head != tail`), the worker snapshots the batch
(store NULL into `head`, `uatomic_xchg` the tail back to `&head`), calls
`synchronize_rcu()`, then walks the batch invoking callbacks, and finally
subtracts `cbcount` from `qlen` (`uatomic_sub`).  The returned trace
lists these steps in program order. -/
def drainStep (crdp : CallRcuData) : List Ev × CallRcuData :=
  if crdp.cbs = [] then ([], crdp)
  else
    let invoked := walkBatch crdp.cbs
    (Ev.snapshot :: Ev.grace :: invoked.map Ev.invoke,
     { crdp with cbs := [], qlen := wsub crdp.qlen invoked.length })

/-- Key of an invoke event, used to collect the invocation subsequence
of a trace. -/
def invokeFn : Ev → Option Nat
  | Ev.invoke fn => some fn
  | _ => none

theorem walkBatch_eq_filterMap (l : List WfqNode) :
    walkBatch l = l.filterMap realFn := by
  induction l with
  | nil => rfl
  | cons x rest ih =>
    cases x with
    | dummy => simpa [walkBatch, realFn] using ih
    | node fn => simpa [walkBatch, realFn] using ih

/-- Claim C1: in every iteration of the worker's drain cycle on a
non-empty queue, the trace contains the batch snapshot, then the
grace-period wait, and every callback invocation of the batch comes
strictly after the grace-period wait returns. -/
theorem drain_grace_before_invoke (crdp : CallRcuData) (h : crdp.cbs ≠ []) :
    ∃ i, (drainStep crdp).1.get? i = some Ev.grace ∧
      (∀ k, k < i → (drainStep crdp).1.get? k = some Ev.snapshot) ∧
      (∀ j fn, (drainStep crdp).1.get? j = some (Ev.invoke fn) → i < j) := by
  refine ⟨1, ?_, ?_, ?_⟩
  · simp [drainStep, h]
  · intro k hk
    interval_cases k
    simp [drainStep, h]
  · intro j fn hj
    match j with
    | 0 => simp [drainStep, h] at hj
    | 1 => simp [drainStep, h] at hj
    | Nat.succ (Nat.succ j) => omega

/-- Witness for C1 at a concrete worker state. -/
theorem drain_grace_before_invoke_w :
    ∃ i, (drainStep ⟨[WfqNode.dummy, WfqNode.node 5], 0, 0, 1, -1⟩).1.get? i
        = some Ev.grace ∧
      (∀ k, k < i →
        (drainStep ⟨[WfqNode.dummy, WfqNode.node 5], 0, 0, 1, -1⟩).1.get? k
          = some Ev.snapshot) ∧
      (∀ j fn,
        (drainStep ⟨[WfqNode.dummy, WfqNode.node 5], 0, 0, 1, -1⟩).1.get? j
          = some (Ev.invoke fn) → i < j) :=
  drain_grace_before_invoke ⟨[WfqNode.dummy, WfqNode.node 5], 0, 0, 1, -1⟩
    (by decide)

/-- Claim C9: during the drain of a non-empty batch, the dummy sentinel
is never invoked and not counted, the invoked callbacks are exactly the
real nodes of the batch in order (hence, when the batch's real callbacks
are pairwise distinct, each is invoked exactly once), and `qlen` is
decremented by exactly the number of real callbacks invoked. -/
theorem drain_skips_dummy_invokes_each_once (crdp : CallRcuData)
    (h : crdp.cbs ≠ []) (hnd : (crdp.cbs.filterMap realFn).Nodup) :
    (drainStep crdp).1.filterMap invokeFn = crdp.cbs.filterMap realFn ∧
    (∀ fn ∈ crdp.cbs.filterMap realFn,
      ((drainStep crdp).1.filterMap invokeFn).count fn = 1) ∧
    (drainStep crdp).2.qlen
      = wsub crdp.qlen (crdp.cbs.filterMap realFn).length := by
  have htr : (drainStep crdp).1.filterMap invokeFn
      = crdp.cbs.filterMap realFn := by
    simp [drainStep, h, invokeFn, List.filterMap_cons,
      walkBatch_eq_filterMap]
    have : (invokeFn ∘ Ev.invoke) = some := by
      funext fn; rfl
    rw [this, List.filterMap_some]
  refine ⟨htr, ?_, ?_⟩
  · intro fn hfn
    rw [htr]
    exact List.count_eq_one_of_mem hnd hfn
  · simp [drainStep, h, walkBatch_eq_filterMap]

/-- Witness for C9 at a concrete worker state. -/
theorem drain_skips_dummy_invokes_each_once_w :
    (drainStep ⟨[WfqNode.dummy, WfqNode.node 5, WfqNode.node 7], 0, 0, 2,
        -1⟩).1.filterMap invokeFn
      = ([WfqNode.dummy, WfqNode.node 5,
          WfqNode.node 7] : List WfqNode).filterMap realFn ∧
    (∀ fn ∈ ([WfqNode.dummy, WfqNode.node 5,
          WfqNode.node 7] : List WfqNode).filterMap realFn,
      ((drainStep ⟨[WfqNode.dummy, WfqNode.node 5, WfqNode.node 7], 0, 0, 2,
          -1⟩).1.filterMap invokeFn).count fn = 1) ∧
    (drainStep ⟨[WfqNode.dummy, WfqNode.node 5, WfqNode.node 7], 0, 0, 2,
        -1⟩).2.qlen
      = wsub 2 (([WfqNode.dummy, WfqNode.node 5,
          WfqNode.node 7] : List WfqNode).filterMap realFn).length :=
  drain_skips_dummy_invokes_each_once
    ⟨[WfqNode.dummy, WfqNode.node 5, WfqNode.node 7], 0, 0, 2, -1⟩
    (by decide) (by decide)

/-- Host-machine parameters consumed by the engine:
`sysconf(_SC_NPROCESSORS_CONF)` and whether `malloc` of the per-CPU
pointer array succeeds. -/
structure Machine where
  ncpus : Int
  mallocOk : Bool
deriving DecidableEq, Repr

/-- The process-global state of the engine: the heap of live workers
addressed by id (a freed worker's slot is `none`), the
`default_call_rcu_data` pointer, the `call_rcu_data_list` registry (ids,
most recently added first, as `cds_list_add` inserts at the head), the
RCU-published `per_cpu_call_rcu_data` array of worker ids, and
`maxcpus`. -/
structure EngineState where
  heap : List (Option CallRcuData)
  defaultWorker : Option Nat
  registry : List Nat
  percpu : Option (List (Option Nat))
  maxcpus : Int
deriving DecidableEq, Repr

/-- Dereference a worker id: `none` if the id was never allocated or the
worker has been freed. -/
def heapGet (s : EngineState) (id : Nat) : Option CallRcuData :=
  s.heap[id]?.getD none

/-- Overwrite the worker stored at an id. -/
def heapSet (s : EngineState) (id : Nat) (w : CallRcuData) : EngineState :=
  { s with heap := s.heap.set id (some w) }

/-- `call_rcu_data_init` (lines 325-347): allocate a fresh worker with
an initialized wait-free queue (the queue initially holds exactly the
dummy sentinel, per `cds_wfq_init`), `qlen = 0`, `futex = 0`, the given
flags and CPU affinity, and link it at the head of the registry list
(`cds_list_add`).  Thread spawning is external to the state.  Returns
the id stored into `*crdpp`. -/
def call_rcu_data_init (s : EngineState) (flags : Nat)
    (cpu_affinity : Int) : Nat × EngineState :=
  let id := s.heap.length
  let crdp : CallRcuData :=
    { cbs := [WfqNode.dummy], flags := flags, futex := 0, qlen := 0,
      cpu_affinity := cpu_affinity }
  (id, { s with heap := s.heap ++ [some crdp],
                registry := id :: s.registry })

/-- `get_default_call_rcu_data` (lines 462-474): return the default
worker, lazily creating it with flags 0 and `cpu_affinity = -1` under
the registry mutex on first call. -/
def get_default_call_rcu_data (s : EngineState) : Nat × EngineState :=
  match s.defaultWorker with
  | some id => (id, s)
  | none =>
    let (id, s1) := call_rcu_data_init s 0 (-1)
    (id, { s1 with defaultWorker := some id })

/-- The stop handshake of `call_rcu_data_free` (lines 651-656): if the
worker has not yet acknowledged termination, set `STOP`, wake the
thread, and poll until it has set `STOPPED`.  The sequential model
records that acknowledgement in the flags; the worker state is the one
observed once the loop exits. -/
def stopHandshake (w : CallRcuData) : CallRcuData :=
  if w.flags &&& URCU_CALL_RCU_STOPPED = 0 then
    { w with flags :=
        (w.flags ||| URCU_CALL_RCU_STOP) ||| URCU_CALL_RCU_STOPPED }
  else w

/-- The splice step of `call_rcu_data_free` (lines 657-672): if the
evicted worker's queue is observed non-empty, snapshot the batch (store
NULL into `head`, exchange the tail back to `&head`), create the default
worker if need be, exchange the default's queue tail with the batch tail
and patch the previous tail's next link — at the list level, append the
batch to the default's queue — add the evicted `qlen` to the default's
`qlen`, and wake the default worker. -/
def spliceLeftovers (s : EngineState) (w : CallRcuData) : EngineState :=
  if w.cbs = [] then s
  else
    let (d, sd) := get_default_call_rcu_data s
    match heapGet sd d with
    | none => sd
    | some dw =>
      heapSet sd d
        { dw with cbs := dw.cbs ++ w.cbs, qlen := wadd dw.qlen w.qlen }

/-- The final step of `call_rcu_data_free` (lines 674-678): under the
registry mutex, unlink the worker from the registry list
(`cds_list_del`) and free the worker struct. -/
def unlinkAndFree (s : EngineState) (id : Nat) : EngineState :=
  { s with registry := s.registry.erase id, heap := s.heap.set id none }

/-- `call_rcu_data_free` (lines 642-679): silently ignore NULL and the
default worker; otherwise perform the stop handshake, splice any
leftover callbacks onto the default worker, and unlink and free the
worker struct. -/
def call_rcu_data_free (s : EngineState) (arg : Option Nat) :
    EngineState :=
  match arg with
  | none => s
  | some id =>
    if s.defaultWorker = some id then s
    else
      match heapGet s id with
      | none => s
      | some w0 =>
        let w := stopHandshake w0
        unlinkAndFree (spliceLeftovers (heapSet s id w) w) id

theorem heapGet_heapSet_ne (s : EngineState) (i j : Nat) (w : CallRcuData)
    (h : i ≠ j) : heapGet (heapSet s i w) j = heapGet s j := by
  simp [heapGet, heapSet, List.getElem?_set_ne h]

theorem heapGet_heapSet_self (s : EngineState) (i : Nat) (w : CallRcuData)
    (h : i < s.heap.length) : heapGet (heapSet s i w) i = some w := by
  simp [heapGet, heapSet, List.getElem?_set_eq_of_lt _ h]

theorem heapGet_lt_length (s : EngineState) (i : Nat) (w : CallRcuData)
    (h : heapGet s i = some w) : i < s.heap.length := by
  by_contra hlt
  rw [heapGet, List.getElem?_eq_none (by omega)] at h
  simp at h

theorem heapGet_unlinkAndFree_ne (s : EngineState) (id d : Nat)
    (h : id ≠ d) : heapGet (unlinkAndFree s id) d = heapGet s d := by
  simp [heapGet, unlinkAndFree, List.getElem?_set_ne h]

theorem heapGet_unlinkAndFree_self (s : EngineState) (id : Nat)
    (h : id < s.heap.length) : heapGet (unlinkAndFree s id) id = none := by
  simp [heapGet, unlinkAndFree, List.getElem?_set_eq_of_lt _ h]

theorem registry_unlinkAndFree (s : EngineState) (id : Nat) :
    (unlinkAndFree s id).registry = s.registry.erase id := rfl

theorem registry_spliceLeftovers (s : EngineState) (w : CallRcuData)
    (d : Nat) (hd : s.defaultWorker = some d) :
    (spliceLeftovers s w).registry = s.registry := by
  by_cases hq : w.cbs = []
  · simp [spliceLeftovers, hq]
  · simp only [spliceLeftovers, if_neg hq, get_default_call_rcu_data, hd]
    cases heapGet s d <;> simp [heapSet]

theorem length_spliceLeftovers (s : EngineState) (w : CallRcuData)
    (d : Nat) (hd : s.defaultWorker = some d) :
    (spliceLeftovers s w).heap.length = s.heap.length := by
  by_cases hq : w.cbs = []
  · simp [spliceLeftovers, hq]
  · simp only [spliceLeftovers, if_neg hq, get_default_call_rcu_data, hd]
    cases heapGet s d <;> simp [heapSet]

/-- Claim C2: destroying a stopped non-default worker whose queue still
holds callbacks splices those callbacks onto the default worker's queue
and adds the evicted `qlen` to the default's `qlen`; after the call
returns, the evicted worker's pending callbacks are enqueued (in order)
on the default worker. -/
theorem data_free_splices_to_default (s : EngineState) (d r : Nat)
    (dw rw : CallRcuData)
    (hd : s.defaultWorker = some d) (hne : d ≠ r)
    (hdw : heapGet s d = some dw) (hrw : heapGet s r = some rw)
    (hstop : rw.flags &&& URCU_CALL_RCU_STOPPED ≠ 0)
    (hq : rw.cbs ≠ []) :
    heapGet (call_rcu_data_free s (some r)) d
      = some { dw with cbs := dw.cbs ++ rw.cbs,
                       qlen := wadd dw.qlen rw.qlen } := by
  have hdr : ¬ (s.defaultWorker = some r) := by
    rw [hd]
    simp
    exact hne
  have hdlen := heapGet_lt_length s d dw hdw
  have hsh : stopHandshake rw = rw := by
    rw [stopHandshake, if_neg hstop]
  have key : call_rcu_data_free s (some r)
      = unlinkAndFree (spliceLeftovers (heapSet s r rw) rw) r := by
    simp only [call_rcu_data_free, if_neg hdr, hrw, hsh]
  have hs1d : (heapSet s r rw).defaultWorker = some d := by
    simp [heapSet, hd]
  have hs1get : heapGet (heapSet s r rw) d = some dw := by
    rw [heapGet_heapSet_ne s r d rw (Ne.symm hne)]
    exact hdw
  have hsplice : spliceLeftovers (heapSet s r rw) rw
      = heapSet (heapSet s r rw) d
          { dw with cbs := dw.cbs ++ rw.cbs,
                    qlen := wadd dw.qlen rw.qlen } := by
    simp only [spliceLeftovers, if_neg hq, get_default_call_rcu_data,
      hs1d, hs1get]
  rw [key, hsplice, heapGet_unlinkAndFree_ne _ r d (Ne.symm hne),
    heapGet_heapSet_self]
  simpa [heapSet] using hdlen

/-- Witness for C2 at a concrete engine state: worker 1 (stopped, two
pending callbacks, qlen 2) is destroyed and its batch lands on the
default worker 0. -/
theorem data_free_splices_to_default_w :
    heapGet (call_rcu_data_free
        ⟨[some ⟨[WfqNode.dummy], 0, 0, 0, -1⟩,
          some ⟨[WfqNode.node 5, WfqNode.node 7], 8, 0, 2, -1⟩],
         some 0, [1, 0], none, 0⟩ (some 1)) 0
      = some ⟨[WfqNode.dummy, WfqNode.node 5, WfqNode.node 7], 0, 0,
          wadd 0 2, -1⟩ :=
  data_free_splices_to_default
    ⟨[some ⟨[WfqNode.dummy], 0, 0, 0, -1⟩,
      some ⟨[WfqNode.node 5, WfqNode.node 7], 8, 0, 2, -1⟩],
     some 0, [1, 0], none, 0⟩ 0 1
    ⟨[WfqNode.dummy], 0, 0, 0, -1⟩
    ⟨[WfqNode.node 5, WfqNode.node 7], 8, 0, 2, -1⟩
    rfl (by decide) rfl rfl (by decide) (by decide)

/-- Claim C6: destroying a non-NULL, non-default worker always unlinks
it from the registry list and frees the worker struct before returning,
whether or not its queue still holds callbacks. -/
theorem data_free_unlinks_and_frees (s : EngineState) (d r : Nat)
    (rw : CallRcuData)
    (hd : s.defaultWorker = some d) (hne : d ≠ r)
    (hrw : heapGet s r = some rw) (hnodup : s.registry.Nodup) :
    r ∉ (call_rcu_data_free s (some r)).registry ∧
    heapGet (call_rcu_data_free s (some r)) r = none := by
  have hdr : ¬ (s.defaultWorker = some r) := by
    rw [hd]
    simp
    exact hne
  have hrlen := heapGet_lt_length s r rw hrw
  have key : call_rcu_data_free s (some r)
      = unlinkAndFree
          (spliceLeftovers (heapSet s r (stopHandshake rw))
            (stopHandshake rw)) r := by
    simp only [call_rcu_data_free, if_neg hdr, hrw]
  have hs1d : (heapSet s r (stopHandshake rw)).defaultWorker = some d := by
    simp [heapSet, hd]
  have hreg : (spliceLeftovers (heapSet s r (stopHandshake rw))
      (stopHandshake rw)).registry = s.registry := by
    rw [registry_spliceLeftovers _ _ d hs1d]
    rfl
  have hlen : (spliceLeftovers (heapSet s r (stopHandshake rw))
      (stopHandshake rw)).heap.length = s.heap.length := by
    rw [length_spliceLeftovers _ _ d hs1d]
    simp [heapSet]
  constructor
  · rw [key, registry_unlinkAndFree, hreg]
    exact hnodup.not_mem_erase
  · rw [key, heapGet_unlinkAndFree_self _ r (by omega)]

/-- Witness for C6 at a concrete engine state with an empty-queue
worker. -/
theorem data_free_unlinks_and_frees_w :
    1 ∉ (call_rcu_data_free
        ⟨[some ⟨[WfqNode.dummy], 0, 0, 0, -1⟩, some ⟨[], 8, 0, 0, -1⟩],
         some 0, [1, 0], none, 0⟩ (some 1)).registry ∧
    heapGet (call_rcu_data_free
        ⟨[some ⟨[WfqNode.dummy], 0, 0, 0, -1⟩, some ⟨[], 8, 0, 0, -1⟩],
         some 0, [1, 0], none, 0⟩ (some 1)) 1 = none :=
  data_free_unlinks_and_frees
    ⟨[some ⟨[WfqNode.dummy], 0, 0, 0, -1⟩, some ⟨[], 8, 0, 0, -1⟩],
     some 0, [1, 0], none, 0⟩ 0 1 ⟨[], 8, 0, 0, -1⟩
    rfl (by decide) rfl (by decide)

/-- Claim C10: `get_default_call_rcu_data` is idempotent and never
returns NULL: the first call creates the default worker with flags 0
(so the `RT` bit is clear) and `cpu_affinity = -1` (unpinned), and a
subsequent call returns that same worker with the state unchanged,
creating no further worker. -/
theorem get_default_idempotent (s : EngineState)
    (h : s.defaultWorker = none) :
    heapGet (get_default_call_rcu_data s).2
        (get_default_call_rcu_data s).1
      = some ⟨[WfqNode.dummy], 0, 0, 0, -1⟩ ∧
    (0 : Nat) &&& URCU_CALL_RCU_RT = 0 ∧
    get_default_call_rcu_data (get_default_call_rcu_data s).2
      = ((get_default_call_rcu_data s).1,
         (get_default_call_rcu_data s).2) ∧
    (get_default_call_rcu_data s).2.heap.length = s.heap.length + 1 := by
  simp only [get_default_call_rcu_data, h, call_rcu_data_init]
  refine ⟨?_, by decide, by simp, by simp⟩
  simp [heapGet, List.getElem?_append_right, List.length_append]

/-- Witness for C10 on the fresh (empty) engine state. -/
theorem get_default_idempotent_w :
    heapGet (get_default_call_rcu_data ⟨[], none, [], none, 0⟩).2
        (get_default_call_rcu_data ⟨[], none, [], none, 0⟩).1
      = some ⟨[WfqNode.dummy], 0, 0, 0, -1⟩ ∧
    (0 : Nat) &&& URCU_CALL_RCU_RT = 0 ∧
    get_default_call_rcu_data
        (get_default_call_rcu_data ⟨[], none, [], none, 0⟩).2
      = ((get_default_call_rcu_data ⟨[], none, [], none, 0⟩).1,
         (get_default_call_rcu_data ⟨[], none, [], none, 0⟩).2) ∧
    (get_default_call_rcu_data ⟨[], none, [], none, 0⟩).2.heap.length
      = ([] : List (Option CallRcuData)).length + 1 :=
  get_default_idempotent ⟨[], none, [], none, 0⟩ rfl

/-- Read of a per-CPU slot (`per_cpu_call_rcu_data[cpu]`). -/
def slotRead (arr : List (Option Nat)) (i : Nat) : Option Nat :=
  arr[i]?.getD none

/-- `alloc_cpu_call_rcu_data` (lines 104-125): if `maxcpus` is already
non-zero this is a no-op; otherwise `maxcpus` is first assigned from
`sysconf(_SC_NPROCESSORS_CONF)`.  If that is non-positive, return.
Otherwise allocate and zero the per-CPU pointer array and RCU-publish
it; on allocation failure a warning is printed and the array pointer
stays NULL, but `maxcpus` keeps its new value. -/
def alloc_cpu_call_rcu_data (m : Machine) (s : EngineState) :
    EngineState :=
  if s.maxcpus ≠ 0 then s
  else if m.ncpus ≤ 0 then { s with maxcpus := m.ncpus }
  else if m.mallocOk then
    { s with maxcpus := m.ncpus,
             percpu := some (List.replicate m.ncpus.toNat none) }
  else { s with maxcpus := m.ncpus }

/-- `get_cpu_call_rcu_data` (lines 359-374): NULL if the per-CPU array
has not been published or the cpu is out of range, else the
RCU-dereferenced slot. -/
def get_cpu_call_rcu_data (s : EngineState) (cpu : Int) : Option Nat :=
  match s.percpu with
  | none => none
  | some arr =>
    if cpu < 0 ∨ s.maxcpus ≤ cpu then none
    else slotRead arr cpu.toNat

/-- `set_cpu_call_rcu_data` (lines 423-454): under the registry mutex,
first allocate the per-CPU array if needed, then reject an out-of-range
cpu with `-EINVAL`, then reject a missing array with `-ENOMEM`, then
reject an already-assigned slot (when the new worker is non-NULL) with
`-EEXIST`, and otherwise RCU-publish the worker into the slot and return
0. -/
def set_cpu_call_rcu_data (m : Machine) (s : EngineState) (cpu : Int)
    (crdp : Option Nat) : Int × EngineState :=
  let s1 := alloc_cpu_call_rcu_data m s
  if cpu < 0 ∨ s1.maxcpus ≤ cpu then (-EINVAL, s1)
  else
    match s1.percpu with
    | none => (-ENOMEM, s1)
    | some arr =>
      if slotRead arr cpu.toNat ≠ none ∧ crdp ≠ none then (-EEXIST, s1)
      else (0, { s1 with percpu := some (arr.set cpu.toNat crdp) })

theorem slotRead_replicate (n i : Nat) :
    slotRead (List.replicate n (none : Option Nat)) i = none := by
  simp only [slotRead, List.getElem?_replicate]
  split <;> rfl

/-- Claim C4: when an in-range cpu's slot already holds a non-NULL
worker, `set_cpu_call_rcu_data(cpu, r)` with non-NULL `r` fails with
`-EEXIST` and leaves the whole state (in particular the slot) unchanged;
and in general the function publishes only when the slot is NULL or `r`
is NULL (a return of 0 implies one of the two). -/
theorem set_cpu_eexist_slot_unchanged (m : Machine) (s : EngineState)
    (cpu : Int) (arr : List (Option Nat)) (w r : Nat)
    (hmax : s.maxcpus ≠ 0) (harr : s.percpu = some arr)
    (h0 : 0 ≤ cpu) (hcpu : cpu < s.maxcpus)
    (hslot : slotRead arr cpu.toNat = some w) :
    set_cpu_call_rcu_data m s cpu (some r) = (-EEXIST, s) ∧
    (∀ (m' : Machine) (s' : EngineState) (cpu' : Int) (r' : Option Nat),
      (set_cpu_call_rcu_data m' s' cpu' r').1 = 0 →
      ∀ arr', (alloc_cpu_call_rcu_data m' s').percpu = some arr' →
        slotRead arr' cpu'.toNat = none ∨ r' = none) := by
  constructor
  · have halloc : alloc_cpu_call_rcu_data m s = s := by
      rw [alloc_cpu_call_rcu_data, if_pos hmax]
    have hrange : ¬ (cpu < 0 ∨ s.maxcpus ≤ cpu) := by
      push_neg
      exact ⟨by omega, by omega⟩
    simp only [set_cpu_call_rcu_data, halloc, if_neg hrange, harr]
    rw [if_pos]
    exact ⟨by simp [hslot], by simp⟩
  · intro m' s' cpu' r' hret arr' harr'
    by_cases hr : cpu' < 0 ∨ (alloc_cpu_call_rcu_data m' s').maxcpus ≤ cpu'
    · rw [set_cpu_call_rcu_data] at hret
      simp only [if_pos hr] at hret
      exact absurd hret (by norm_num [EINVAL])
    · rw [set_cpu_call_rcu_data] at hret
      simp only [if_neg hr, harr'] at hret
      by_cases hex : slotRead arr' cpu'.toNat ≠ none ∧ r' ≠ none
      · rw [if_pos hex] at hret
        exact absurd hret (by norm_num [EEXIST])
      · push_neg at hex
        by_cases hsl : slotRead arr' cpu'.toNat = none
        · exact Or.inl hsl
        · exact Or.inr (hex hsl)

/-- Witness for C4: a one-CPU state whose slot 0 holds worker 3;
assigning worker 4 to cpu 0 fails with `-EEXIST` and changes nothing. -/
theorem set_cpu_eexist_slot_unchanged_w :
    set_cpu_call_rcu_data ⟨1, true⟩
        ⟨[], none, [], some [some 3], 1⟩ 0 (some 4)
      = (-EEXIST, ⟨[], none, [], some [some 3], 1⟩) ∧
    (∀ (m' : Machine) (s' : EngineState) (cpu' : Int) (r' : Option Nat),
      (set_cpu_call_rcu_data m' s' cpu' r').1 = 0 →
      ∀ arr', (alloc_cpu_call_rcu_data m' s').percpu = some arr' →
        slotRead arr' cpu'.toNat = none ∨ r' = none) :=
  set_cpu_eexist_slot_unchanged ⟨1, true⟩
    ⟨[], none, [], some [some 3], 1⟩ 0 [some 3] 3 4
    (by decide) rfl (by decide) (by decide) rfl

/-- Claim C7: `set_cpu_call_rcu_data` allocates the per-CPU array before
performing the cpu range check and before publishing: on a fresh state
(array not yet allocated, `maxcpus = 0`) on a machine with a positive
CPU count, the call returns `-EINVAL` exactly when the cpu is outside
`[0, ncpus)` — in particular an in-range cpu never fails with
`-EINVAL` — and even then the resulting state has `maxcpus` already
assigned, evidencing that allocation precedes the check. -/
theorem set_cpu_alloc_before_check (m : Machine) (s : EngineState)
    (cpu : Int) (r : Option Nat)
    (hfresh : s.maxcpus = 0) (hnone : s.percpu = none)
    (hpos : 0 < m.ncpus) :
    ((set_cpu_call_rcu_data m s cpu r).1 = -EINVAL
      ↔ (cpu < 0 ∨ m.ncpus ≤ cpu)) ∧
    (set_cpu_call_rcu_data m s cpu r).2.maxcpus = m.ncpus := by
  have hmc : (alloc_cpu_call_rcu_data m s).maxcpus = m.ncpus := by
    rw [alloc_cpu_call_rcu_data, if_neg (by omega), if_neg (by omega)]
    by_cases hok : m.mallocOk
    · rw [if_pos hok]
    · rw [if_neg hok]
  by_cases hr : cpu < 0 ∨ m.ncpus ≤ cpu
  · have hr' : cpu < 0 ∨ (alloc_cpu_call_rcu_data m s).maxcpus ≤ cpu := by
      rw [hmc]
      exact hr
    constructor
    · rw [set_cpu_call_rcu_data]
      simp only [if_pos hr']
      simp [hr]
    · rw [set_cpu_call_rcu_data]
      simp only [if_pos hr']
      exact hmc
  · have hr' : ¬ (cpu < 0 ∨ (alloc_cpu_call_rcu_data m s).maxcpus ≤ cpu) := by
      rw [hmc]
      exact hr
    by_cases hok : m.mallocOk
    · have halloc : alloc_cpu_call_rcu_data m s
          = { s with maxcpus := m.ncpus,
                     percpu := some (List.replicate m.ncpus.toNat none) } := by
        rw [alloc_cpu_call_rcu_data, if_neg (by omega), if_neg (by omega),
          if_pos hok]
      have harr1 : (alloc_cpu_call_rcu_data m s).percpu
          = some (List.replicate m.ncpus.toNat none) := by
        rw [halloc]
      have hsl : slotRead (List.replicate m.ncpus.toNat (none : Option Nat))
          cpu.toNat = none := slotRead_replicate _ _
      constructor
      · rw [set_cpu_call_rcu_data]
        simp only [if_neg hr', harr1]
        rw [if_neg (by simp [hsl])]
        exact ⟨fun h0 => absurd h0 (by norm_num [EINVAL]),
          fun hc => absurd hc hr⟩
      · rw [set_cpu_call_rcu_data]
        simp only [if_neg hr', harr1]
        rw [if_neg (by simp [hsl])]
        simp [halloc]
    · have halloc : alloc_cpu_call_rcu_data m s
          = { s with maxcpus := m.ncpus } := by
        rw [alloc_cpu_call_rcu_data, if_neg (by omega), if_neg (by omega),
          if_neg hok]
      have harr1 : (alloc_cpu_call_rcu_data m s).percpu = none := by
        rw [halloc]
        exact hnone
      constructor
      · rw [set_cpu_call_rcu_data]
        simp only [if_neg hr', harr1]
        exact ⟨fun h0 => absurd h0 (by norm_num [ENOMEM, EINVAL]),
          fun hc => absurd hc hr⟩
      · rw [set_cpu_call_rcu_data]
        simp only [if_neg hr', harr1]
        exact hmc

/-- Witness for C7 on the fresh state of a 2-CPU machine: cpu 1 is in
range so the call does not fail with `-EINVAL`, and cpu 2 would. -/
theorem set_cpu_alloc_before_check_w :
    ((set_cpu_call_rcu_data ⟨2, true⟩ ⟨[], none, [], none, 0⟩ 1
        (some 3)).1 = -EINVAL ↔ ((1 : Int) < 0 ∨ (2 : Int) ≤ 1)) ∧
    (set_cpu_call_rcu_data ⟨2, true⟩ ⟨[], none, [], none, 0⟩ 1
        (some 3)).2.maxcpus = 2 :=
  set_cpu_alloc_before_check ⟨2, true⟩ ⟨[], none, [], none, 0⟩ 1 (some 3)
    rfl rfl (by decide)

/-- Phase 1 of `free_all_cpu_call_rcu_data` (lines 702-707): for each
cpu in order, record the slot's worker (`crdp[cpu] =
get_cpu_call_rcu_data(cpu)`) and, when it is non-NULL, null the slot via
`set_cpu_call_rcu_data(cpu, NULL)`.  Returns the saved worker ids, the
cpus whose slots were nulled (in loop order), and the resulting
state. -/
def nullAllSlots (m : Machine) :
    List Nat → EngineState → List (Option Nat) × List Nat × EngineState
  | [], s => ([], [], s)
  | cpu :: rest, s =>
    match get_cpu_call_rcu_data s (Int.ofNat cpu) with
    | none =>
      let (saved, nulled, s') := nullAllSlots m rest s
      (none :: saved, nulled, s')
    | some id =>
      let s1 := (set_cpu_call_rcu_data m s (Int.ofNat cpu) none).2
      let (saved, nulled, s') := nullAllSlots m rest s1
      (some id :: saved, cpu :: nulled, s')

/-- Phase 2 of `free_all_cpu_call_rcu_data` (lines 713-717): for each
cpu in order, if a worker was saved for it, destroy that worker with
`call_rcu_data_free`.  Returns the cpus whose workers were freed (in
loop order) and the resulting state. -/
def freeSaved : List (Nat × Option Nat) → EngineState → List Nat × EngineState
  | [], s => ([], s)
  | (_, none) :: rest, s => freeSaved rest s
  | (cpu, some id) :: rest, s =>
    let s1 := call_rcu_data_free s (some id)
    let (freed, s') := freeSaved rest s1
    (cpu :: freed, s')

/-- `free_all_cpu_call_rcu_data` (lines 684-719): return immediately if
`maxcpus <= 0` or the local saved-pointer array cannot be allocated;
otherwise null every occupied per-CPU slot (phase 1), call
`synchronize_rcu()` to wait for call_rcu sites acting as RCU readers of
the per-CPU pointers to become quiescent, and only then destroy the
evicted workers (phase 2).  The returned trace lists the slot-nulling
events, the grace-period wait, and the worker destructions in program
order. -/
def free_all_cpu_call_rcu_data (m : Machine) (s : EngineState) :
    List Ev × EngineState :=
  if s.maxcpus ≤ 0 then ([], s)
  else if ¬ m.mallocOk then ([], s)
  else
    let cpus := List.range s.maxcpus.toNat
    let (saved, nulled, s1) := nullAllSlots m cpus s
    let (freed, s2) := freeSaved (cpus.zip saved) s1
    (nulled.map Ev.nullSlot ++ Ev.grace :: freed.map Ev.freeSlot, s2)

theorem grace_separates (nulled freed : List Nat) :
    ∃ k, (nulled.map Ev.nullSlot
        ++ Ev.grace :: freed.map Ev.freeSlot).get? k = some Ev.grace ∧
      (∀ i c, (nulled.map Ev.nullSlot
          ++ Ev.grace :: freed.map Ev.freeSlot).get? i
          = some (Ev.nullSlot c) → i < k) ∧
      (∀ j c, (nulled.map Ev.nullSlot
          ++ Ev.grace :: freed.map Ev.freeSlot).get? j
          = some (Ev.freeSlot c) → k < j) := by
  refine ⟨(nulled.map Ev.nullSlot).length, ?_, ?_, ?_⟩
  · rw [List.get?_eq_getElem?,
      List.getElem?_append_right (Nat.le_refl _)]
    simp
  · intro i c hi
    by_contra hik
    push_neg at hik
    rw [List.get?_eq_getElem?,
      List.getElem?_append_right hik] at hi
    rcases hd : i - (nulled.map Ev.nullSlot).length with _ | n
    · rw [hd] at hi
      simp at hi
    · rw [hd] at hi
      simp only [List.getElem?_cons_succ] at hi
      have hmem : Ev.nullSlot c ∈ freed.map Ev.freeSlot := by
        exact List.getElem?_mem hi
      rcases List.mem_map.1 hmem with ⟨c', _, hc'⟩
      exact absurd hc' (by simp)
  · intro j c hj
    by_contra hjk
    push_neg at hjk
    rcases Nat.lt_or_ge j (nulled.map Ev.nullSlot).length with hlt | hge
    · rw [List.get?_eq_getElem?, List.getElem?_append_left hlt] at hj
      have hmem : Ev.freeSlot c ∈ nulled.map Ev.nullSlot := by
        exact List.getElem?_mem hj
      rcases List.mem_map.1 hmem with ⟨c', _, hc'⟩
      exact absurd hc' (by simp)
    · have hj' : j = (nulled.map Ev.nullSlot).length := by omega
      rw [List.get?_eq_getElem?, hj',
        List.getElem?_append_right (Nat.le_refl _)] at hj
      simp at hj

/-- Claim C5: `free_all_cpu_call_rcu_data` first nulls every occupied
per-CPU slot, then waits one full grace period, and only after that
grace period completes does it destroy any evicted worker: in the
operation's trace the grace-period event comes strictly after every
slot-nulling event and strictly before every worker destruction. -/
theorem free_all_grace_between_null_and_free (m : Machine)
    (s : EngineState) (h1 : 0 < s.maxcpus) (h2 : m.mallocOk) :
    ∃ k, (free_all_cpu_call_rcu_data m s).1.get? k = some Ev.grace ∧
      (∀ i c, (free_all_cpu_call_rcu_data m s).1.get? i
          = some (Ev.nullSlot c) → i < k) ∧
      (∀ j c, (free_all_cpu_call_rcu_data m s).1.get? j
          = some (Ev.freeSlot c) → k < j) := by
  have hng : ¬ s.maxcpus ≤ 0 := by omega
  have hok : ¬ ¬ m.mallocOk = true := by simp [h2]
  rcases hns : nullAllSlots m (List.range s.maxcpus.toNat) s with
    ⟨saved, nulled, s1⟩
  rcases hfs : freeSaved ((List.range s.maxcpus.toNat).zip saved) s1 with
    ⟨freed, s2⟩
  have htr : (free_all_cpu_call_rcu_data m s).1
      = nulled.map Ev.nullSlot ++ Ev.grace :: freed.map Ev.freeSlot := by
    rw [free_all_cpu_call_rcu_data, if_neg hng, if_neg hok]
    simp only [hns, hfs]
  rw [htr]
  exact grace_separates nulled freed

/-- Witness for C5: one CPU whose slot holds worker 0, with worker 1 as
the default; the trace is computed concretely and the ordering property
instantiated. -/
theorem free_all_grace_between_null_and_free_w :
    ∃ k, (free_all_cpu_call_rcu_data ⟨1, true⟩
        ⟨[some ⟨[], 8, 0, 0, 0⟩, some ⟨[WfqNode.dummy], 0, 0, 0, -1⟩],
         some 1, [1, 0], some [some 0], 1⟩).1.get? k = some Ev.grace ∧
      (∀ i c, (free_all_cpu_call_rcu_data ⟨1, true⟩
          ⟨[some ⟨[], 8, 0, 0, 0⟩, some ⟨[WfqNode.dummy], 0, 0, 0, -1⟩],
           some 1, [1, 0], some [some 0], 1⟩).1.get? i
          = some (Ev.nullSlot c) → i < k) ∧
      (∀ j c, (free_all_cpu_call_rcu_data ⟨1, true⟩
          ⟨[some ⟨[], 8, 0, 0, 0⟩, some ⟨[WfqNode.dummy], 0, 0, 0, -1⟩],
           some 1, [1, 0], some [some 0], 1⟩).1.get? j
          = some (Ev.freeSlot c) → k < j) :=
  free_all_grace_between_null_and_free ⟨1, true⟩
    ⟨[some ⟨[], 8, 0, 0, 0⟩, some ⟨[WfqNode.dummy], 0, 0, 0, -1⟩],
     some 1, [1, 0], some [some 0], 1⟩ (by decide) (by decide)

/-- The first loop of `call_rcu_before_fork` (lines 733-737): for every
worker on the registry list, in list order, set the `PAUSE` flag
(`uatomic_or`), fence, and wake the worker's thread (the wake does not
change the modelled state). -/
def setPauseAll : List Nat → EngineState → EngineState
  | [], s => s
  | id :: rest, s =>
    match heapGet s id with
    | none => setPauseAll rest s
    | some w =>
      setPauseAll rest
        (heapSet s id { w with flags := w.flags ||| URCU_CALL_RCU_PAUSE })

/-- The inner polling loop of `call_rcu_before_fork` (lines 739-740):
`while ((uatomic_read(&crdp->flags) & URCU_CALL_RCU_PAUSED) == 0)
poll(NULL, 0, 1);`.  `obs t` is the value read from the worker's flags
word at the t-th poll (the worker thread updates it concurrently); the
loop returns the first observation with the `PAUSED` bit set, or `none`
if the fuel runs out before one is seen. -/
def waitPaused (obs : Nat → Nat) : Nat → Option Nat
  | 0 => none
  | fuel + 1 =>
    if obs 0 &&& URCU_CALL_RCU_PAUSED ≠ 0 then some (obs 0)
    else waitPaused (fun t => obs (t + 1)) fuel

/-- The second loop of `call_rcu_before_fork` (lines 738-741): poll the
i-th, (i+1)-th, ... registered worker in turn until each has been
observed with `PAUSED` set; `obs i` is the observation stream of the
i-th worker's flags.  Returns the observed flag values, one per worker,
or `none` if any poll loop fails to terminate within the fuel. -/
def pollAll (obs : Nat → Nat → Nat) (fuel : Nat) :
    Nat → Nat → Option (List Nat)
  | _, 0 => some []
  | i, n + 1 =>
    match waitPaused (obs i) fuel, pollAll obs fuel (i + 1) n with
    | some f, some fs => some (f :: fs)
    | _, _ => none

/-- `call_rcu_before_fork` (lines 727-742): under the registry mutex,
set `PAUSE` on every registered worker and wake it, then poll every
registered worker until it has been observed with `PAUSED` set.  Returns
the post-state and the observed flag values (one per registered worker)
when every poll loop terminated. -/
def call_rcu_before_fork (s : EngineState) (obs : Nat → Nat → Nat)
    (fuel : Nat) : Option (EngineState × List Nat) :=
  let s1 := setPauseAll s.registry s
  match pollAll obs fuel 0 s.registry.length with
  | some fs => some (s1, fs)
  | none => none

theorem waitPaused_paused (fuel : Nat) :
    ∀ (obs : Nat → Nat) (f : Nat), waitPaused obs fuel = some f →
      f &&& URCU_CALL_RCU_PAUSED ≠ 0 := by
  induction fuel with
  | zero =>
    intro obs f h
    simp [waitPaused] at h
  | succ n ih =>
    intro obs f h
    rw [waitPaused] at h
    by_cases hb : obs 0 &&& URCU_CALL_RCU_PAUSED ≠ 0
    · rw [if_pos hb] at h
      rcases Option.some.inj h with rfl
      exact hb
    · rw [if_neg hb] at h
      exact ih _ f h

theorem pollAll_paused (obs : Nat → Nat → Nat) (fuel : Nat) :
    ∀ (n i : Nat) (fs : List Nat), pollAll obs fuel i n = some fs →
      fs.length = n ∧ ∀ f ∈ fs, f &&& URCU_CALL_RCU_PAUSED ≠ 0 := by
  intro n
  induction n with
  | zero =>
    intro i fs h
    rw [pollAll] at h
    rcases Option.some.inj h with rfl
    exact ⟨rfl, by simp⟩
  | succ k ih =>
    intro i fs h
    rw [pollAll] at h
    rcases hw : waitPaused (obs i) fuel with _ | f
    · rw [hw] at h
      simp at h
    · rcases hp : pollAll obs fuel (i + 1) k with _ | fs'
      · rw [hw, hp] at h
        simp at h
      · rw [hw, hp] at h
        simp only [Option.some.injEq] at h
        rcases h with rfl
        rcases ih (i + 1) fs' hp with ⟨hlen, hall⟩
        refine ⟨by simp [hlen], ?_⟩
        intro f' hf'
        rcases List.mem_cons.1 hf' with rfl | hmem
        · exact waitPaused_paused fuel (obs i) f' hw
        · exact hall f' hmem

theorem registry_setPauseAll (l : List Nat) :
    ∀ s : EngineState, (setPauseAll l s).registry = s.registry := by
  induction l with
  | nil => intro s; rfl
  | cons a rest ih =>
    intro s
    rw [setPauseAll]
    rcases h : heapGet s a with _ | w
    · exact ih s
    · rw [ih]
      rfl

theorem heapGet_setPauseAll_not_mem (l : List Nat) :
    ∀ (s : EngineState) (id : Nat), id ∉ l →
      heapGet (setPauseAll l s) id = heapGet s id := by
  induction l with
  | nil => intro s id _; rfl
  | cons a rest ih =>
    intro s id hid
    have hne : a ≠ id := fun hc => hid (hc ▸ List.mem_cons_self a rest)
    have hrest : id ∉ rest := fun hc => hid (List.mem_cons_of_mem a hc)
    rw [setPauseAll]
    rcases h : heapGet s a with _ | w
    · exact ih s id hrest
    · rw [ih _ id hrest]
      exact heapGet_heapSet_ne s a id _ hne

theorem heapGet_setPauseAll_mem (l : List Nat) :
    ∀ (s : EngineState) (id : Nat) (w : CallRcuData), l.Nodup → id ∈ l →
      heapGet s id = some w →
      heapGet (setPauseAll l s) id
        = some { w with flags := w.flags ||| URCU_CALL_RCU_PAUSE } := by
  induction l with
  | nil =>
    intro s id w _ hmem
    exact absurd hmem (List.not_mem_nil id)
  | cons a rest ih =>
    intro s id w hnd hmem hw
    rcases List.mem_cons.1 hmem with rfl | hmem'
    · rw [setPauseAll, hw]
      have hnotin : id ∉ rest := (List.nodup_cons.1 hnd).1
      rw [heapGet_setPauseAll_not_mem rest _ id hnotin]
      exact heapGet_heapSet_self s id _ (heapGet_lt_length s id w hw)
    · have hne : a ≠ id := by
        intro hc
        exact (List.nodup_cons.1 hnd).1 (hc ▸ hmem')
      rw [setPauseAll]
      rcases h : heapGet s a with _ | wa
      · exact ih s id w (List.nodup_cons.1 hnd).2 hmem' hw
      · refine ih _ id w (List.nodup_cons.1 hnd).2 hmem' ?_
        rw [heapGet_heapSet_ne s a id _ hne]
        exact hw

/-- Claim C3: when `call_rcu_before_fork` returns, every worker on the
registry list has had the `PAUSE` flag set, and each registered worker
has been observed with the `PAUSED` flag set (one observation per
worker); the function does not return while any registered worker has
not yet been observed `PAUSED`. -/
theorem before_fork_all_paused (s : EngineState)
    (obs : Nat → Nat → Nat) (fuel : Nat) (s' : EngineState)
    (fs : List Nat)
    (h : call_rcu_before_fork s obs fuel = some (s', fs))
    (hnd : s.registry.Nodup) :
    fs.length = s.registry.length ∧
    (∀ f ∈ fs, f &&& URCU_CALL_RCU_PAUSED ≠ 0) ∧
    (∀ id ∈ s.registry, ∀ w, heapGet s id = some w →
      heapGet s' id
        = some { w with flags := w.flags ||| URCU_CALL_RCU_PAUSE }) := by
  rw [call_rcu_before_fork] at h
  rcases hp : pollAll obs fuel 0 s.registry.length with _ | fs0
  · rw [hp] at h
    simp at h
  · rw [hp] at h
    simp only [Option.some.injEq, Prod.mk.injEq] at h
    rcases h with ⟨hs', hfs⟩
    rcases pollAll_paused obs fuel s.registry.length 0 fs0 hp with
      ⟨hlen, hall⟩
    refine ⟨by rw [← hfs, hlen], ?_, ?_⟩
    · intro f hf
      exact hall f (by rw [hfs]; exact hf)
    · intro id hid w hw
      rw [← hs']
      exact heapGet_setPauseAll_mem s.registry s id w hnd hid hw

/-- Witness for C3: one registered worker whose flags are observed as
`PAUSED` on the first poll. -/
theorem before_fork_all_paused_w :
    ([32] : List Nat).length
      = (EngineState.registry ⟨[some ⟨[WfqNode.dummy], 0, 0, 0, -1⟩],
          some 0, [0], none, 0⟩).length ∧
    (∀ f ∈ ([32] : List Nat), f &&& URCU_CALL_RCU_PAUSED ≠ 0) ∧
    (∀ id ∈ (EngineState.registry ⟨[some ⟨[WfqNode.dummy], 0, 0, 0, -1⟩],
          some 0, [0], none, 0⟩), ∀ w,
      heapGet ⟨[some ⟨[WfqNode.dummy], 0, 0, 0, -1⟩],
          some 0, [0], none, 0⟩ id = some w →
      heapGet ⟨[some ⟨[WfqNode.dummy], 16, 0, 0, -1⟩],
          some 0, [0], none, 0⟩ id
        = some { w with flags := w.flags ||| URCU_CALL_RCU_PAUSE }) :=
  before_fork_all_paused
    ⟨[some ⟨[WfqNode.dummy], 0, 0, 0, -1⟩], some 0, [0], none, 0⟩
    (fun _ _ => 32) 1
    ⟨[some ⟨[WfqNode.dummy], 16, 0, 0, -1⟩], some 0, [0], none, 0⟩
    [32] (by decide) (by decide)

end Urcu
